import Mathlib

/-
Verification development for the MonPy monday.com client (src/monday_class.py).
The Python module is shallowly embedded: Python dicts become insertion-ordered
association lists, pandas cells become `Option String` (with `none` playing the
role of NaN), HTTP transport becomes an oracle value describing the outcome of
the POST, and exceptions become explicit `Except` values.
-/

namespace MonPy

/-- Python dict modelled as an insertion-ordered association list.
Assignment `d[k] = v` updates the value in place when the key is present
(keeping its position) and appends otherwise. -/
def dictInsert {κ : Type} [DecidableEq κ] {α : Type} (d : List (κ × α)) (k : κ) (v : α) :
    List (κ × α) :=
  if d.any (fun p => p.1 = k) then
    d.map (fun p => if p.1 = k then (k, v) else p)
  else
    d ++ [(k, v)]

/-- Python dict lookup `d[k]` / membership test `k in d`. -/
def dictLookup {κ : Type} [DecidableEq κ] {α : Type} (d : List (κ × α)) (k : κ) : Option α :=
  (d.find? (fun p => p.1 = k)).map (fun p => p.2)

/-- One pandas cell: `none` models a missing value (NaN), `some s` a present
value already rendered as text. -/
abbrev Cell := Option String

/-- Python `str(value)` on a cell; `str` of the pandas NaN float is "nan". -/
def pyStr : Cell → String
  | some s => s
  | none => "nan"

/-- Whitespace characters removed by Python `str.strip()`. -/
def pyIsSpace (c : Char) : Bool :=
  c = ' ' || c = '\t' || c = '\n' || c = '\r' || c.toNat = 11 || c.toNat = 12

/-- Python `str.strip()`: remove leading and trailing whitespace. -/
def pyStrip (s : String) : String :=
  String.mk (((s.toList.dropWhile pyIsSpace).reverse.dropWhile pyIsSpace).reverse)

/-- Worker for `pySplit`: split a character list at every occurrence of the
separator, keeping empty fields, like Python `str.split(sep)`. -/
def splitCharsAux (sep : Char) : List Char → List Char → List (List Char)
  | [], cur => [cur.reverse]
  | c :: rest, cur =>
    if c = sep then cur.reverse :: splitCharsAux sep rest []
    else splitCharsAux sep rest (c :: cur)

/-- Python `str.split(sep)` for a one-character separator. -/
def pySplit (sep : Char) (s : String) : List String :=
  (splitCharsAux sep s.toList []).map String.mk

/-- Python `c in s` membership test for a single character. -/
def pyContains (s : String) (c : Char) : Bool :=
  s.toList.contains c

/-- Python `str.startswith`. -/
def pyStartsWith (s pre : String) : Bool :=
  pre.toList.isPrefixOf s.toList

/-- Python `str.zfill(w)`: left-pad with zeros up to width `w`, keeping a
leading sign in front of the padding. -/
def zfill (w : Nat) (s : String) : String :=
  let l := s.toList
  if w ≤ l.length then s
  else
    let sign := if l.headD ' ' = '+' || l.headD ' ' = '-' then [l.headD ' '] else []
    let rest := if sign = [] then l else l.tail
    String.mk (sign ++ List.replicate (w - l.length) '0' ++ rest)

/-- Date-column coercion of `Board.create_item` (monday_class.py lines 243-260),
applied to the text of a non-missing cell.  `none` means the branch makes no
assignment into the outgoing value dict, i.e. the column value is omitted.
The code only rearranges the string: it drops a trailing time component after
the first space, and when the remainder splits on "/" into exactly three
fields (month, day, year) it rebuilds `year-month-day`; otherwise, with no "/",
the text is passed through unchanged.  No validity check is performed. -/
def coerceDate (raw : String) : Option String :=
  let date_str := pyStrip raw
  if date_str = "" then none
  else
    let d := if pyContains date_str ' ' then (pySplit ' ' date_str).headD "" else date_str
    if pyContains d '/' then
      match pySplit '/' d with
      | [month, day, year] => some (year ++ "-" ++ zfill 2 month ++ "-" ++ zfill 2 day)
      | _ => none
    else
      some d

/-- Structured column value sent to the API: plain text for general columns,
or the structured date wrapper for date columns. -/
inductive ColVal where
  | text (s : String)
  | date (d : String)
  deriving Repr, DecidableEq

/-- Column map of a board: title maps to the pair (column id, index). -/
abbrev ColumnMap := List (String × String × Int)

/-- Title-to-id resolution and value formatting loop of `Board.create_item`
(monday_class.py lines 235-266).  Titles absent from the column map are
skipped; a column whose resolved id starts with "date" goes through
`coerceDate` (missing or blank cells, and "/"-strings that do not split into
exactly three parts, are skipped); every other column stores `str(value)`. -/
def resolveColumnValues (columns : ColumnMap) (column_values : List (String × Cell)) :
    List (String × ColVal) :=
  column_values.foldl
    (fun acc p =>
      match dictLookup columns p.1 with
      | none => acc
      | some (column_id, _) =>
        if pyStartsWith column_id "date" then
          match p.2 with
          | none => acc
          | some raw =>
            match coerceDate raw with
            | some d => dictInsert acc column_id (ColVal.date d)
            | none => acc
        else
          dictInsert acc column_id (ColVal.text (pyStr p.2)))
    []

/-- Hexadecimal digit used by the JSON escaper. -/
def hexDigit (n : Nat) : Char :=
  ("0123456789abcdef".toList).getD n '0'

/-- Escape of one character as performed by `json.dumps` (ASCII payloads). -/
def jsonEscapeChar (c : Char) : String :=
  if c = '"' then "\\\""
  else if c = '\\' then "\\\\"
  else if c = '\n' then "\\n"
  else if c = '\t' then "\\t"
  else if c = '\r' then "\\r"
  else if c.toNat = 8 then "\\b"
  else if c.toNat = 12 then "\\f"
  else if c.toNat < 32 then "\\u00" ++ String.mk [hexDigit (c.toNat / 16), hexDigit (c.toNat % 16)]
  else String.mk [c]

/-- Escape of a string as performed by `json.dumps` (ASCII payloads). -/
def jsonEscape (s : String) : String :=
  String.join (s.toList.map jsonEscapeChar)

/-- Serialization of one column value: a JSON string for text columns, the
object \x7b"date": "..."\x7d for date columns. -/
def dumpColVal : ColVal → String
  | ColVal.text s => "\"" ++ jsonEscape s ++ "\""
  | ColVal.date d => "\x7b\"date\": \"" ++ jsonEscape d ++ "\"\x7d"

/-- Python `json.dumps` on the resolved value dict, with the default
separators (", " and ": ") and insertion-ordered keys. -/
def jsonDumps (m : List (String × ColVal)) : String :=
  "\x7b" ++
    String.intercalate ", "
      (m.map (fun p => "\"" ++ jsonEscape p.1 ++ "\": " ++ dumpColVal p.2)) ++
  "\x7d"

/-- GraphQL variables of the create_item mutation (monday_class.py lines
269-273): the value map is serialized into the single JSON string parameter
`columnValues`. -/
structure Variables where
  boardId : String
  itemName : String
  columnValues : String
  deriving Repr, DecidableEq

/-- Request construction of `Board.create_item` (lines 231-273): a `none`
value map is replaced by the empty dict, titles are resolved and values
formatted, and the result is serialized with `json.dumps`. -/
def create_item_request (board : String) (columns : ColumnMap) (item_name : String)
    (column_values : Option (List (String × Cell))) : Variables :=
  { boardId := board
    itemName := item_name
    columnValues := jsonDumps (resolveColumnValues columns (column_values.getD [])) }

/-- The create_item field of a parsed response body: data.create_item.id/name. -/
structure ItemInfo where
  id : String
  name : String
  deriving Repr, DecidableEq

/-- Parsed JSON body of an API response.  `errors = some l` models the
presence of an "errors" field; `data = some inner` models the presence of a
"data" field, with `inner = some info` modelling a present "create_item"
object. -/
structure ApiResponse where
  errors : Option (List String)
  data : Option (Option ItemInfo)
  deriving Repr, DecidableEq

deriving instance DecidableEq for Except

/-- Outcome of the HTTP POST issued by `Board.create_item`, as decided by the
environment: the request raised a transport exception, or a response with the
given status came back whose body parses (`Except.ok`) or fails to parse
(`Except.error`, the JSONDecodeError case), or some unexpected exception was
raised. -/
inductive ReqOutcome where
  | reqError (msg : String)
  | response (status : Nat) (body : Except String ApiResponse)
  | unexpected (msg : String)
  deriving Repr, DecidableEq

/-- The Python exceptions that can escape the body of the try block of
`Board.create_item`. -/
inductive PyExn where
  | requestExn (msg : String)
  | jsonDecodeExn (msg : String)
  | otherExn (msg : String)
  deriving Repr, DecidableEq

/-- Body of the try block of `Board.create_item` (lines 280-296): on a non-200
status return None; parse the body (a parse failure raises JSONDecodeError);
on an "errors" field return None; otherwise return the parsed data.  Transport
and unexpected failures raise. -/
def create_item_tryBody : ReqOutcome → Except PyExn (Option ApiResponse)
  | ReqOutcome.reqError m => Except.error (PyExn.requestExn m)
  | ReqOutcome.unexpected m => Except.error (PyExn.otherExn m)
  | ReqOutcome.response status body =>
    if status ≠ 200 then Except.ok none
    else
      match body with
      | Except.error m => Except.error (PyExn.jsonDecodeExn m)
      | Except.ok r => if r.errors.isSome then Except.ok none else Except.ok (some r)

/-- The three except clauses of `Board.create_item` (lines 298-307): each kind
of exception is caught and turned into the return value None. -/
def handleExns : Except PyExn (Option ApiResponse) → Except PyExn (Option ApiResponse)
  | Except.ok v => Except.ok v
  | Except.error (PyExn.requestExn _) => Except.ok none
  | Except.error (PyExn.jsonDecodeExn _) => Except.ok none
  | Except.error (PyExn.otherExn _) => Except.ok none

/-- The try statement of `Board.create_item`: run the body, then the except
clauses. -/
def create_item_run (o : ReqOutcome) : Except PyExn (Option ApiResponse) :=
  handleExns (create_item_tryBody o)

/-- Value returned by `Board.create_item` to its caller for a given transport
outcome (the `Except.error` branch is unreachable, see
`create_item_never_raises`). -/
def create_item_result (o : ReqOutcome) : Option ApiResponse :=
  match create_item_run o with
  | Except.ok v => v
  | Except.error _ => none

/-- `Board.create_item` in full: builds the request from the inputs and
returns the result decided by the transport outcome. -/
def create_item (board : String) (columns : ColumnMap) (item_name : String)
    (column_values : Option (List (String × Cell))) (o : ReqOutcome) :
    Variables × Option ApiResponse :=
  (create_item_request board columns item_name column_values, create_item_result o)

/-- Worker of `importBoardColumns` (monday_class.py lines 87-93): the running
index starts at the given value and increments once per schema record, each
record inserting title maps-to (id, index) into the dict. -/
def importBoardColumnsGo (x : Int) : List (String × String) → ColumnMap → ColumnMap
  | [], d => d
  | c :: rest, d => importBoardColumnsGo (x + 1) rest (dictInsert d c.2 (c.1, x))

/-- `importBoardColumns` applied to the list of (id, title) records of the
schema response: the running index starts at -1 ("because name column is
special") and increments per column, whatever the first column is. -/
def importBoardColumns (cols : List (String × String)) : ColumnMap :=
  importBoardColumnsGo (-1) cols []

/-- Positional description of the same map: the record at position i is
assigned index x + i.  Used to state the amended version of the column-map
invariant. -/
def enumMapFrom (x : Int) : List (String × String) → ColumnMap
  | [] => []
  | c :: rest => (c.2, (c.1, x)) :: enumMapFrom (x + 1) rest

/-- One board entry of the configuration file boards.json: the stored name,
board id (properties.board) and api key (properties.apiKey), plus the cached
column map. -/
structure StoredEntry where
  name : String
  board : String
  apiKey : String
  columns : ColumnMap
  deriving Repr, DecidableEq

/-- In-memory board entry after `boardGen` ran: board id and api key are the
resolved local variables, which are Python values that start as None. -/
structure MemEntry where
  name : String
  board : Option String
  apiKey : Option String
  columns : ColumnMap
  deriving Repr, DecidableEq

/-- Lift of a file entry into the in-memory dict returned by `boardGen`. -/
def storedToMem (e : StoredEntry) : MemEntry :=
  { name := e.name, board := some e.board, apiKey := some e.apiKey, columns := e.columns }

/-- Local-variable state of `boardGen` while scanning the file: the boardID
and apiKey locals and the number of interactive prompts answered so far
(`idx` also indexes the stream of interactive answers). -/
structure RState where
  boardID : Option String
  apiKey : Option String
  idx : Nat
  deriving Repr, DecidableEq

/-- Prompting for missing credentials (monday_class.py lines 129-132 and
155-158): ask for the api key when it is still None, then for the board id
when it is still None.  Each `input()` consumes the next interactive answer. -/
def promptMissing (inputs : Nat → String) (st : RState) : RState :=
  let st1 :=
    if st.apiKey.isNone then { st with apiKey := some (inputs st.idx), idx := st.idx + 1 }
    else st
  if st1.boardID.isNone then { st1 with boardID := some (inputs st1.idx), idx := st1.idx + 1 }
  else st1

/-- One iteration of the scan over the stored boards (lines 122-132): an entry
whose stored name equals the requested name overwrites both locals with the
stored values; any other entry prompts for whichever credential is still
missing. -/
def resolveStep (name : String) (inputs : Nat → String) (st : RState) (p : String × StoredEntry) :
    RState :=
  if p.2.name = name then { st with boardID := some p.2.board, apiKey := some p.2.apiKey }
  else promptMissing inputs st

/-- The whole scan over the stored boards of the loaded file. -/
def resolveEntries (name : String) (inputs : Nat → String) (st : RState)
    (l : List (String × StoredEntry)) : RState :=
  l.foldl (resolveStep name inputs) st

/-- The stored entry that wins the scan: the last entry of the file whose
stored name equals the requested name. -/
def lastMatch (name : String) : List (String × StoredEntry) → Option StoredEntry
  | [] => none
  | p :: rest =>
    match lastMatch name rest with
    | some e => some e
    | none => if p.2.name = name then some p.2 else none

/-- Boards dict held in memory by `boardGen`; keys are the resolved boardID
locals, hence `Option String` (a still-missing board id is the Python None). -/
abbrev MemBoards := List (Option String × MemEntry)

/-- The except branch of `boardGen` (lines 152-179): prompt for whatever is
still missing, then upsert a fresh entry whose columns come from the schema
fetch; a failing schema fetch raises out of `boardGen` (the exception happens
inside the except handler and propagates). -/
def boardGenRescue (name : String) (inputs : Nat → String) (st : RState) (base : MemBoards)
    (fetch : Option String → Except String ColumnMap) : Except String MemBoards :=
  match fetch (promptMissing inputs st).boardID with
  | Except.ok cm =>
    Except.ok (dictInsert base (promptMissing inputs st).boardID
      { name := name
        board := (promptMissing inputs st).boardID
        apiKey := (promptMissing inputs st).apiKey
        columns := cm })
  | Except.error e => Except.error e

/-- `boardGen` (monday_class.py lines 95-181).  `file = none` models a
missing, unreadable or Boards-less configuration file (every such case raises
before the scan and lands in the except branch with an empty dict).  With a
readable file the scan resolves the credentials, then the schema fetch runs;
if it fails, control moves to the except branch carrying the already-updated
locals and the already-loaded dict.  The returned value is the Boards dict of
the fileDict that `boardGen` returns. -/
def boardGen (name : String) (boardID apiKey : Option String)
    (file : Option (List (String × StoredEntry)))
    (fetch : Option String → Except String ColumnMap) (inputs : Nat → String) :
    Except String MemBoards :=
  match file with
  | none => boardGenRescue name inputs { boardID := boardID, apiKey := apiKey, idx := 0 } [] fetch
  | some fb =>
    match fetch (resolveEntries name inputs { boardID := boardID, apiKey := apiKey, idx := 0 } fb).boardID with
    | Except.ok cm =>
      Except.ok (dictInsert (fb.map (fun p => (some p.1, storedToMem p.2)))
        (resolveEntries name inputs { boardID := boardID, apiKey := apiKey, idx := 0 } fb).boardID
        { name := name
          board := (resolveEntries name inputs { boardID := boardID, apiKey := apiKey, idx := 0 } fb).boardID
          apiKey := (resolveEntries name inputs { boardID := boardID, apiKey := apiKey, idx := 0 } fb).apiKey
          columns := cm })
    | Except.error _ =>
      boardGenRescue name inputs
        (resolveEntries name inputs { boardID := boardID, apiKey := apiKey, idx := 0 } fb)
        (fb.map (fun p => (some p.1, storedToMem p.2))) fetch

/-- `Board.__init__` (monday_class.py lines 200-218): run `boardGen`, then
index the returned dict by the caller-supplied boardID argument (not by the
board id resolved inside `boardGen`); a missing key is the Python KeyError. -/
def board_init (name : String) (boardID apiKey : Option String)
    (file : Option (List (String × StoredEntry)))
    (fetch : Option String → Except String ColumnMap) (inputs : Nat → String) :
    Except String MemEntry :=
  match boardGen name boardID apiKey file fetch inputs with
  | Except.error e => Except.error e
  | Except.ok boards =>
    match dictLookup boards boardID with
    | some e => Except.ok e
    | none => Except.error "KeyError"

/-- The mutation text built by `Board.update_column_value` (line 325), with
the item id, board id, column id and value interpolated into the string. -/
def mutationString (item_id board column_id value : String) : String :=
  "mutation \x7b change_simple_column_value(item_id: " ++ item_id ++
    ", board_id: " ++ board ++ ", column_id: " ++ column_id ++
    ", value: \"" ++ value ++ "\") \x7b id \x7d \x7d"

/-- The Python exceptions that `Board.update_column_value` can surface: the
explicit ValueError of line 322, and — because lines 328-329 run the POST and
`response.json()` with no handler — an uncaught transport exception, an
uncaught parse failure of the body, or any other uncaught exception. -/
inductive UpdateExn where
  | valueError (msg : String)
  | requestExn (msg : String)
  | jsonDecodeExn (msg : String)
  | otherExn (msg : String)
  deriving Repr, DecidableEq

/-- `Board.update_column_value` (monday_class.py lines 309-329): raise
ValueError when the column title is not in the column map; otherwise resolve
the column id, build the mutation from it and issue the POST.  The POST and
the `response.json()` of lines 328-329 run outside any try block, so a
transport failure or a body that fails to parse raises to the caller; a body
that parses is returned whatever the HTTP status (no status check here).  The
ok value pairs the mutation text that was issued with the parsed response. -/
def update_column_value (columns : ColumnMap) (board item_id column_title value : String)
    (o : ReqOutcome) : Except UpdateExn (String × ApiResponse) :=
  match dictLookup columns column_title with
  | none => Except.error (UpdateExn.valueError ("Column " ++ column_title ++ " not found in board"))
  | some p =>
    match o with
    | ReqOutcome.reqError m => Except.error (UpdateExn.requestExn m)
    | ReqOutcome.unexpected m => Except.error (UpdateExn.otherExn m)
    | ReqOutcome.response _ (Except.error m) => Except.error (UpdateExn.jsonDecodeExn m)
    | ReqOutcome.response _ (Except.ok r) =>
      Except.ok (mutationString item_id board p.1 value, r)

/-- One source row: the header titles paired with the cells of the row. -/
abbrev Row := List (String × Cell)

/-- Item-name determination of `Board.upload_excel_data` (lines 371-375):
the value of the name column when that argument is truthy and the label is
present in the row, otherwise the value of the first column. -/
def itemNameOf (nc : Option String) (row : Row) : String :=
  match nc with
  | some n =>
    if n ≠ "" ∧ row.any (fun p => p.1 = n) then pyStr ((dictLookup row n).getD none)
    else pyStr (row.headD ("", none)).2
  | none => pyStr (row.headD ("", none)).2

/-- Python `column_name != name_column` where the right side may be None. -/
def pyNe (t : String) (nc : Option String) : Bool :=
  match nc with
  | none => true
  | some n => t ≠ n

/-- Column-value dict built per row by `Board.upload_excel_data` (lines
378-381): every cell whose title differs from the name-column argument and
whose value is not missing. -/
def columnValuesOf (nc : Option String) (row : Row) : List (String × String) :=
  row.foldl
    (fun acc p =>
      match p.2 with
      | some v => if pyNe p.1 nc then dictInsert acc p.1 v else acc
      | none => acc)
    []

/-- The same dict described as a filter over the row, used to state the
amended row-mapping claim. -/
def specColumnValues (nc : Option String) (row : Row) : List (String × String) :=
  row.filterMap
    (fun p =>
      match p.2 with
      | some v => if pyNe p.1 nc then some (p.1, v) else none
      | none => none)

/-- The id appended to created_items for one create_item return value (lines
388-397): nothing on None, nothing when the data or create_item field is
absent, otherwise data.create_item.id. -/
def extractId : Option ApiResponse → Option String
  | none => none
  | some r =>
    match r.data with
    | some (some info) => some info.id
    | some none => none
    | none => none

/-- Row loop of `Board.upload_excel_data` (lines 368-402): for each row in
order, build the item name and column values, call create_item with the
outcome the environment assigns to that row, and append the created id on
success; every failure is logged and skipped. -/
def uploadGo (board : String) (columns : ColumnMap) (nc : Option String)
    (net : Nat → ReqOutcome) : Nat → List Row → List String → List String
  | _, [], acc => acc
  | i, row :: rest, acc =>
    match (create_item board columns (itemNameOf nc row)
        (some ((columnValuesOf nc row).map (fun p => (p.1, some p.2)))) (net i)).2 with
    | none => uploadGo board columns nc net (i + 1) rest acc
    | some r =>
      match r.data with
      | some (some info) => uploadGo board columns nc net (i + 1) rest (acc ++ [info.id])
      | some none => uploadGo board columns nc net (i + 1) rest acc
      | none => uploadGo board columns nc net (i + 1) rest acc

/-- `Board.upload_excel_data` on already-parsed rows, with `net` assigning to
each row index the outcome of its create_item POST. -/
def upload_excel_data (board : String) (columns : ColumnMap) (nc : Option String)
    (rows : List Row) (net : Nat → ReqOutcome) : List String :=
  uploadGo board columns nc net 0 rows []

/-- Concrete environment for the three-row import example: row 0 creates item
id A, row 1 fails at the network level, row 2 creates item id C. -/
def net3 : Nat → ReqOutcome := fun i =>
  if i = 0 then ReqOutcome.response 200 (Except.ok ⟨none, some (some ⟨"A", "r1"⟩)⟩)
  else if i = 1 then ReqOutcome.reqError "connection refused"
  else ReqOutcome.response 200 (Except.ok ⟨none, some (some ⟨"C", "r3"⟩)⟩)

/-
Helper lemmas about the dict embedding.
-/

theorem dictInsert_of_not_mem {κ : Type} [DecidableEq κ] {α : Type}
    (d : List (κ × α)) (k : κ) (v : α) (h : d.any (fun p => p.1 = k) = false) :
    dictInsert d k v = d ++ [(k, v)] := by
  simp [dictInsert, h]

theorem dictLookup_none_of_all_some {α : Type} :
    ∀ d : List (Option String × α), (∀ p ∈ d, p.1.isSome = true) →
      dictLookup d (none : Option String) = none := by
  intro d h
  unfold dictLookup
  rw [List.find?_eq_none.mpr]
  · rfl
  · intro p hp
    have := h p hp
    simp only [Option.isSome_iff_exists] at this
    obtain ⟨y, hy⟩ := this
    simp [hy]

theorem dictInsert_all_some {α : Type} (d : List (Option String × α)) (k : Option String) (v : α)
    (h : ∀ p ∈ d, p.1.isSome = true) (hk : k.isSome = true) :
    ∀ p ∈ dictInsert d k v, p.1.isSome = true := by
  intro p hp
  unfold dictInsert at hp
  by_cases hmem : d.any (fun p => p.1 = k) = true
  · rw [if_pos hmem] at hp
    obtain ⟨q, hq, hpq⟩ := List.mem_map.mp hp
    by_cases hqk : q.1 = k
    · rw [if_pos hqk] at hpq; rw [← hpq]; exact hk
    · rw [if_neg hqk] at hpq; rw [← hpq]; exact h q hq
  · rw [if_neg hmem] at hp
    rcases List.mem_append.mp hp with h1 | h2
    · exact h p h1
    · rw [List.mem_singleton.mp h2]; exact hk

/-- C10: for every transport, parse or unexpected failure, the try statement
of create_item ends in a return value rather than in a propagated exception:
the except clauses cover every exception kind that the body can raise, so
create_item never raises to its caller and always returns parsed data or
None. -/
theorem create_item_never_raises :
    ∀ o : ReqOutcome, ∃ v : Option ApiResponse, create_item_run o = Except.ok v := by
  intro o
  unfold create_item_run
  cases h : create_item_tryBody o with
  | ok v => exact ⟨v, rfl⟩
  | error e => cases e <;> exact ⟨none, rfl⟩

/-- C4 counterexample: a response with HTTP status 201 (a 2xx status other
than 200) and a well-formed body without errors is treated as a failure by
create_item (it returns None), contrary to the claim that any 2xx status is
treated as success. -/
theorem status_201_not_success :
    create_item_result
        (ReqOutcome.response 201 (Except.ok ⟨none, some (some ⟨"1", "item"⟩)⟩)) = none ∧
      200 ≤ 201 ∧ 201 < 300 := by
  decide

/-- C4 amended: create_item returns parsed response data exactly when the
HTTP status is exactly 200, the body parses as JSON and the parsed body has
no errors field; every other outcome, including any 2xx status other than
200, returns the error result None. -/
theorem create_item_result_characterization :
    ∀ (o : ReqOutcome) (r : ApiResponse),
      create_item_result o = some r ↔
        o = ReqOutcome.response 200 (Except.ok r) ∧ r.errors = none := by
  intro o r
  cases o with
  | reqError m =>
    simp [create_item_result, create_item_run, create_item_tryBody, handleExns]
  | unexpected m =>
    simp [create_item_result, create_item_run, create_item_tryBody, handleExns]
  | response status body =>
    by_cases hs : status = 200
    · subst hs
      cases body with
      | error m =>
        simp [create_item_result, create_item_run, create_item_tryBody, handleExns]
      | ok a =>
        by_cases he : a.errors.isSome
        · simp only [create_item_result, create_item_run, create_item_tryBody, handleExns,
            ne_eq, not_true_eq_false, if_false, if_pos he]
          constructor
          · intro hc; exact absurd hc (by simp)
          · rintro ⟨ha, hr⟩
            injection ha with ha1 ha2
            injection ha2 with ha3
            rw [← ha3] at hr
            rw [hr] at he
            simp at he
        · simp only [create_item_result, create_item_run, create_item_tryBody, handleExns,
            ne_eq, not_true_eq_false, if_false, if_neg he]
          rw [Option.not_isSome_iff_eq_none] at he
          constructor
          · intro hc
            injection hc with hc1
            subst hc1
            exact ⟨rfl, he⟩
          · rintro ⟨ha, _⟩
            injection ha with ha1 ha2
            injection ha2 with ha3
            rw [ha3]
    · simp [create_item_result, create_item_run, create_item_tryBody, handleExns, hs]

/-- C1 counterexample: for a date-typed column, the invalid input
"13/45/2025" is not omitted from the payload as claimed; it is mechanically
reformatted and the column receives the structured value with date
"2025-13-45". -/
theorem date_coercion_invalid_included :
    dictLookup (resolveColumnValues [("Due", ("date4", 0))] [("Due", some "13/45/2025")])
        "date4" = some (ColVal.date "2025-13-45") := by
  decide

/-- C1 amended: the valid input "04/30/2025 08:39" is coerced to the
structured value with date "2025-04-30" (time dropped, MM/DD/YYYY
reformatted); the invalid input "13/45/2025" is reformatted without any
validity check to "2025-13-45" and included in the payload rather than
omitted; a value is omitted only when the cell is blank or when the
"/"-separated text does not have exactly three fields; in all cases the row
is still processed (the creation request is still built, carrying the
remaining values). -/
theorem date_coercion_amended :
    coerceDate "04/30/2025 08:39" = some "2025-04-30" ∧
    coerceDate "13/45/2025" = some "2025-13-45" ∧
    coerceDate "04/30" = none ∧
    coerceDate "" = none ∧
    (create_item_request "7" [("Due", ("date4", 0))] "Row1"
        (some [("Due", some "04/30/2025 08:39")])).columnValues
      = "\x7b\"date4\": \x7b\"date\": \"2025-04-30\"\x7d\x7d" ∧
    (create_item_request "7" [("Due", ("date4", 0)), ("Note", ("text1", 1))] "Row1"
        (some [("Due", some "13/45/2025"), ("Note", some "x")])).columnValues
      = "\x7b\"date4\": \x7b\"date\": \"2025-13-45\"\x7d, \"text1\": \"x\"\x7d" := by
  decide

/-- C8: create_item serializes the resolved column-value map into the single
JSON string parameter columnValues of the request variables; with an omitted
or empty column_values map the request still carries the item name together
with the JSON blob consisting of an empty object. -/
theorem create_item_empty_serialization :
    ∀ (b : String) (c : ColumnMap) (n : String) (cvs : List (String × Cell)),
      create_item_request b c n none = ⟨b, n, "\x7b\x7d"⟩ ∧
      create_item_request b c n (some []) = ⟨b, n, "\x7b\x7d"⟩ ∧
      (create_item_request b c n (some cvs)).columnValues
        = jsonDumps (resolveColumnValues c cvs) := by
  intro b c n cvs
  exact ⟨rfl, rfl, rfl⟩

/-- C7 counterexample: an error is surfaced to the caller even though the
title "Status" is present in the column map — a network-level failure of the
uncaught POST of line 328 raises out of update_column_value — so a hard
failure is not raised only when the title is absent. -/
theorem update_present_title_still_raises :
    dictLookup [("Status", ("status_1", (0 : Int)))] "Status" = some ("status_1", 0) ∧
    update_column_value [("Status", ("status_1", 0))] "42" "7" "Status" "Done"
        (ReqOutcome.reqError "connection refused")
      = Except.error (UpdateExn.requestExn "connection refused") := by
  decide

/-- C7 amended: update_column_value raises ValueError exactly when the column
title is absent from the column map; when the title is present it resolves
the column id and issues the mutation built from it, but the POST and the
parse of the body are not guarded: a transport failure raises the request
exception and a non-JSON body raises the decode exception to the caller,
while a body that parses returns the parsed response (paired with the issued
mutation) whatever the HTTP status. -/
theorem update_column_value_amended :
    ∀ (columns : ColumnMap) (board item_id title value : String) (o : ReqOutcome),
      ((∃ m, update_column_value columns board item_id title value o
          = Except.error (UpdateExn.valueError m)) ↔ dictLookup columns title = none) ∧
      (∀ p, dictLookup columns title = some p →
        (∀ st r, o = ReqOutcome.response st (Except.ok r) →
          update_column_value columns board item_id title value o
            = Except.ok (mutationString item_id board p.1 value, r)) ∧
        (∀ m, o = ReqOutcome.reqError m →
          update_column_value columns board item_id title value o
            = Except.error (UpdateExn.requestExn m)) ∧
        (∀ st m, o = ReqOutcome.response st (Except.error m) →
          update_column_value columns board item_id title value o
            = Except.error (UpdateExn.jsonDecodeExn m))) := by
  intro columns board item_id title value o
  cases h : dictLookup columns title with
  | none =>
    refine ⟨?_, ?_⟩
    · simp [update_column_value, h]
    · intro p hp
      exact absurd hp (by simp)
  | some p =>
    refine ⟨?_, ?_⟩
    · cases o with
      | reqError m => simp [update_column_value, h]
      | unexpected m => simp [update_column_value, h]
      | response st body => cases body <;> simp [update_column_value, h]
    · intro q hq
      have hpq : q = p := by injection hq with h1; exact h1.symm
      subst hpq
      refine ⟨?_, ?_, ?_⟩
      · intro st r ho
        subst ho
        simp [update_column_value, h]
      · intro m ho
        subst ho
        simp [update_column_value, h]
      · intro st m ho
        subst ho
        simp [update_column_value, h]

/-- Witness for C7 at a concrete board: a present title with a parsed
response returns the issued mutation and the body, and the same present
title with a network failure surfaces the uncaught request exception. -/
theorem update_column_value_amended_witness :
    update_column_value [("Status", ("status_1", 0))] "42" "7" "Status" "Done"
        (ReqOutcome.response 200 (Except.ok ⟨none, none⟩))
      = Except.ok (mutationString "7" "42" "status_1" "Done", ⟨none, none⟩) ∧
    update_column_value [("Status", ("status_1", 0))] "42" "7" "Status" "Done"
        (ReqOutcome.reqError "down")
      = Except.error (UpdateExn.requestExn "down") := by
  constructor
  · exact ((update_column_value_amended [("Status", ("status_1", 0))] "42" "7" "Status" "Done"
      (ReqOutcome.response 200 (Except.ok ⟨none, none⟩))).2 ("status_1", 0) (by decide)).1
      200 ⟨none, none⟩ rfl
  · exact ((update_column_value_amended [("Status", ("status_1", 0))] "42" "7" "Status" "Done"
      (ReqOutcome.reqError "down")).2 ("status_1", 0) (by decide)).2.1 "down" rfl

theorem columnValuesOf_go_eq (nc : Option String) :
    ∀ (row : Row) (acc : List (String × String)),
      (∀ p ∈ row, acc.any (fun q => q.1 = p.1) = false) →
      (row.map (fun p => p.1)).Nodup →
      row.foldl
          (fun acc p =>
            match p.2 with
            | some v => if pyNe p.1 nc then dictInsert acc p.1 v else acc
            | none => acc)
          acc
        = acc ++ specColumnValues nc row := by
  intro row
  induction row with
  | nil => intro acc _ _; simp [specColumnValues]
  | cons p rest ih =>
    intro acc hacc hnd
    rw [List.foldl_cons]
    cases hc : p.2 with
    | none =>
      simp only [hc]
      rw [ih acc (fun q hq => hacc q (List.mem_cons_of_mem p hq)) (by simpa using hnd.tail)]
      simp [specColumnValues, hc, List.filterMap_cons]
    | some v =>
      simp only [hc]
      by_cases hne : pyNe p.1 nc = true
      · rw [if_pos hne]
        rw [dictInsert_of_not_mem acc p.1 v (hacc p (List.mem_cons_self p rest))]
        have hfresh : ∀ q ∈ rest, (acc ++ [(p.1, v)]).any (fun a => a.1 = q.1) = false := by
          intro q hq
          rw [List.any_append]
          have h1 := hacc q (List.mem_cons_of_mem p hq)
          have h2 : p.1 ≠ q.1 := by
            have := hnd
            rw [List.map_cons, List.nodup_cons] at this
            intro hcontra
            exact this.1 (hcontra ▸ List.mem_map_of_mem (fun a => a.1) hq)
          simp [h1, h2]
        rw [ih (acc ++ [(p.1, v)]) hfresh (by simpa using hnd.tail)]
        simp [specColumnValues, hc, List.filterMap_cons, hne]
      · rw [if_neg hne]
        rw [ih acc (fun q hq => hacc q (List.mem_cons_of_mem p hq)) (by simpa using hnd.tail)]
        simp only [Bool.not_eq_true] at hne
        simp [specColumnValues, hc, List.filterMap_cons, hne]

/-- C3 counterexample: with no nameColumn specified, the first column value
"a" is used as the item name and yet the column "A" is still part of the
column-value set passed to item creation, contrary to the claim that the
column whose value became the name is excluded. -/
theorem name_column_included_when_unspecified :
    itemNameOf none [("A", some "a"), ("B", some "b")] = "a" ∧
    dictLookup (columnValuesOf none [("A", some "a"), ("B", some "b")]) "A" = some "a" := by
  decide

/-- C3 amended: the item name is the value of nameColumn when that argument
is truthy and present in the row, and otherwise the first column value; the
column-value set consists exactly of the non-missing cells whose title
differs from the nameColumn argument, keyed by column title — so when
nameColumn is unspecified the first column, whose value became the item name,
is included rather than excluded. -/
theorem row_mapping_amended :
    ∀ (row : Row) (n : String),
      itemNameOf none row = pyStr (row.headD ("", none)).2 ∧
      (n ≠ "" → row.any (fun p => p.1 = n) = true →
        itemNameOf (some n) row = pyStr ((dictLookup row n).getD none)) ∧
      ((row.map (fun p => p.1)).Nodup → ∀ nc : Option String,
        columnValuesOf nc row = specColumnValues nc row) := by
  intro row n
  refine ⟨rfl, ?_, ?_⟩
  · intro h1 h2
    simp only [itemNameOf]
    rw [if_pos ⟨h1, h2⟩]
  · intro hnd nc
    have := columnValuesOf_go_eq nc row [] (by simp) hnd
    simpa [columnValuesOf] using this

/-- Witness for C3 at a concrete row: a present truthy nameColumn supplies
the item name, and the column-value set is the filtered row. -/
theorem row_mapping_amended_witness :
    itemNameOf (some "A") [("A", some "a"), ("B", none)] =
      pyStr ((dictLookup [("A", some "a"), ("B", none)] "A").getD none) ∧
    columnValuesOf (some "A") [("A", some "a"), ("B", none)] =
      specColumnValues (some "A") [("A", some "a"), ("B", none)] := by
  refine ⟨?_, ?_⟩
  · exact (row_mapping_amended [("A", some "a"), ("B", none)] "A").2.1 (by decide) (by decide)
  · exact (row_mapping_amended [("A", some "a"), ("B", none)] "A").2.2 (by decide) (some "A")

theorem importBoardColumnsGo_eq :
    ∀ (cols : List (String × String)) (x : Int) (d : ColumnMap),
      (cols.map (fun c => c.2)).Nodup →
      (∀ c ∈ cols, d.any (fun q => q.1 = c.2) = false) →
      importBoardColumnsGo x cols d = d ++ enumMapFrom x cols := by
  intro cols
  induction cols with
  | nil => intro x d _ _; simp [importBoardColumnsGo, enumMapFrom]
  | cons c rest ih =>
    intro x d hnd hd
    rw [importBoardColumnsGo]
    rw [dictInsert_of_not_mem d c.2 (c.1, x) (hd c (List.mem_cons_self c rest))]
    have hfresh : ∀ q ∈ rest, (d ++ [(c.2, (c.1, x))]).any (fun a => a.1 = q.2) = false := by
      intro q hq
      rw [List.any_append]
      have h1 := hd q (List.mem_cons_of_mem c hq)
      have h2 : c.2 ≠ q.2 := by
        have := hnd
        rw [List.map_cons, List.nodup_cons] at this
        intro hcontra
        exact this.1 (hcontra ▸ List.mem_map_of_mem (fun a => a.2) hq)
      simp [h1, h2]
    rw [ih (x + 1) (d ++ [(c.2, (c.1, x))]) (by simpa using hnd.tail) hfresh]
    simp [enumMapFrom]

/-- C6 counterexample: a schema response whose first record is not the name
column still assigns the running index -1 to that first record, so the first
non-name column has index -1 rather than 0 as claimed. -/
theorem first_column_index_neg_one :
    dictLookup (importBoardColumns [("text1", "A")]) "A" = some ("text1", -1) ∧
      (-1 : Int) ≠ 0 := by
  decide

/-- C6 amended: for every schema response with distinct titles, the column
map assigns the record at position i the index i - 1, purely positionally:
the first record gets -1 (whether or not it is the name column) and
subsequent records get 0, 1, 2, and so on.  The claimed invariant holds only
when the name column happens to be the first record. -/
theorem importBoardColumns_amended :
    ∀ cols : List (String × String), (cols.map (fun c => c.2)).Nodup →
      importBoardColumns cols = enumMapFrom (-1) cols := by
  intro cols h
  exact importBoardColumnsGo_eq cols (-1) [] h (by simp)

/-- Witness for C6 on a schema whose name column comes first: the map is the
positional one, giving the non-name columns indices 0 and 1. -/
theorem importBoardColumns_amended_witness :
    importBoardColumns [("name", "Name"), ("text1", "A"), ("date4", "Due")] =
      enumMapFrom (-1) [("name", "Name"), ("text1", "A"), ("date4", "Due")] :=
  importBoardColumns_amended [("name", "Name"), ("text1", "A"), ("date4", "Due")] (by decide)

theorem uploadGo_cons (b : String) (c : ColumnMap) (nc : Option String) (net : Nat → ReqOutcome)
    (i : Nat) (row : Row) (rest : List Row) (acc : List String) :
    uploadGo b c nc net i (row :: rest) acc =
      match extractId (create_item_result (net i)) with
      | some id => uploadGo b c nc net (i + 1) rest (acc ++ [id])
      | none => uploadGo b c nc net (i + 1) rest acc := by
  rw [uploadGo]
  simp only [create_item]
  cases h : create_item_result (net i) with
  | none => simp [extractId]
  | some r =>
    cases hd : r.data with
    | none => simp [extractId, hd]
    | some oi => cases oi <;> simp [extractId, hd]

theorem uploadGo_eq (b : String) (c : ColumnMap) (nc : Option String) (net : Nat → ReqOutcome) :
    ∀ (rows : List Row) (i : Nat) (acc : List String),
      uploadGo b c nc net i rows acc
        = acc ++ (List.enumFrom i rows).filterMap
            (fun p => extractId (create_item_result (net p.1))) := by
  intro rows
  induction rows with
  | nil => intro i acc; simp [uploadGo, List.enumFrom]
  | cons row rest ih =>
    intro i acc
    rw [uploadGo_cons]
    cases h : extractId (create_item_result (net i)) with
    | none => simp [ih, List.enumFrom, List.filterMap_cons, h]
    | some id => simp [ih, List.enumFrom, List.filterMap_cons, h]

/-- C5: the bulk import is best-effort and never aborts early: it processes
every row in source order and returns exactly the ids of the successfully
created items in row order, each row contributing its id exactly when its own
create call came back successful; in particular, the three-row import whose
second row fails at the network level yields exactly the two ids A and C. -/
theorem upload_best_effort :
    (∀ (b : String) (c : ColumnMap) (nc : Option String) (rows : List Row)
        (net : Nat → ReqOutcome),
      upload_excel_data b c nc rows net
        = rows.enum.filterMap (fun p => extractId (create_item_result (net p.1)))) ∧
    upload_excel_data "1" [] none
        [[("Name", some "r1")], [("Name", some "r2")], [("Name", some "r3")]] net3
      = ["A", "C"] := by
  constructor
  · intro b c nc rows net
    simpa [upload_excel_data, List.enum] using uploadGo_eq b c nc net rows 0 []
  · decide

theorem promptMissing_of_both_some (inputs : Nat → String) (st : RState)
    (hb : st.boardID.isSome = true) (ha : st.apiKey.isSome = true) :
    promptMissing inputs st = st := by
  obtain ⟨b, hb1⟩ := Option.isSome_iff_exists.mp hb
  obtain ⟨a, ha1⟩ := Option.isSome_iff_exists.mp ha
  simp [promptMissing, hb1, ha1]

theorem resolveEntries_nomatch_keeps (name : String) (inputs : Nat → String) :
    ∀ (l : List (String × StoredEntry)) (st : RState),
      lastMatch name l = none → st.boardID.isSome = true → st.apiKey.isSome = true →
      resolveEntries name inputs st l = st := by
  intro l
  induction l with
  | nil => intro st _ _ _; rfl
  | cons p rest ih =>
    intro st hlm hb ha
    have hrest : lastMatch name rest = none := by
      unfold lastMatch at hlm
      cases hr : lastMatch name rest with
      | none => rfl
      | some e => rw [hr] at hlm; exact absurd hlm (by simp)
    have hp : ¬ p.2.name = name := by
      unfold lastMatch at hlm
      rw [hrest] at hlm
      intro hc
      rw [if_pos hc] at hlm
      exact absurd hlm (by simp)
    show resolveEntries name inputs (resolveStep name inputs st p) rest = st
    rw [resolveStep, if_neg hp, promptMissing_of_both_some inputs st hb ha]
    exact ih st hrest hb ha

theorem resolveEntries_lastMatch (name : String) (inputs : Nat → String) :
    ∀ (l : List (String × StoredEntry)) (e : StoredEntry),
      lastMatch name l = some e → ∀ st : RState,
        (resolveEntries name inputs st l).boardID = some e.board ∧
        (resolveEntries name inputs st l).apiKey = some e.apiKey := by
  intro l
  induction l with
  | nil => intro e h; exact absurd h (by simp [lastMatch])
  | cons p rest ih =>
    intro e hlm st
    show (resolveEntries name inputs (resolveStep name inputs st p) rest).boardID = some e.board ∧
      (resolveEntries name inputs (resolveStep name inputs st p) rest).apiKey = some e.apiKey
    cases hr : lastMatch name rest with
    | some e1 =>
      have he : e1 = e := by
        unfold lastMatch at hlm
        rw [hr] at hlm
        injection hlm
      exact he ▸ ih e1 hr (resolveStep name inputs st p)
    | none =>
      have hp : p.2.name = name ∧ p.2 = e := by
        unfold lastMatch at hlm
        rw [hr] at hlm
        by_cases hc : p.2.name = name
        · rw [if_pos hc] at hlm
          exact ⟨hc, by injection hlm⟩
        · rw [if_neg hc] at hlm
          exact absurd hlm (by simp)
      have hstep : resolveStep name inputs st p =
          { st with boardID := some p.2.board, apiKey := some p.2.apiKey } := by
        rw [resolveStep, if_pos hp.1]
      rw [hstep, resolveEntries_nomatch_keeps name inputs rest _ hr (by simp) (by simp)]
      rw [← hp.2]
      exact ⟨rfl, rfl⟩

theorem resolveStep_keeps_some (name : String) (inputs : Nat → String) (st : RState)
    (p : String × StoredEntry) (hb : st.boardID.isSome = true) (ha : st.apiKey.isSome = true) :
    (resolveStep name inputs st p).boardID.isSome = true ∧
    (resolveStep name inputs st p).apiKey.isSome = true ∧
    (resolveStep name inputs st p).idx = st.idx := by
  unfold resolveStep
  by_cases hc : p.2.name = name
  · rw [if_pos hc]; exact ⟨rfl, rfl, rfl⟩
  · rw [if_neg hc, promptMissing_of_both_some inputs st hb ha]; exact ⟨hb, ha, rfl⟩

theorem resolveEntries_no_prompt (name : String) (inputs : Nat → String) :
    ∀ (l : List (String × StoredEntry)) (st : RState),
      st.boardID.isSome = true → st.apiKey.isSome = true →
      (resolveEntries name inputs st l).idx = st.idx := by
  intro l
  induction l with
  | nil => intro st _ _; rfl
  | cons p rest ih =>
    intro st hb ha
    obtain ⟨hb1, ha1, hidx⟩ := resolveStep_keeps_some name inputs st p hb ha
    show (resolveEntries name inputs (resolveStep name inputs st p) rest).idx = st.idx
    rw [ih (resolveStep name inputs st p) hb1 ha1, hidx]

/-- C2 counterexample: a configuration file that does contain a board entry
whose stored name equals the requested name, preceded by one other entry,
makes the load prompt twice (both credentials were missing) even though the
matching entry exists — yet the final credentials are the stored ones.  The
claim that no prompting happens regardless of how many other entries the file
contains is false. -/
theorem boardGen_prompts_despite_match :
    lastMatch "target"
        [("101", ⟨"other", "101", "key1", []⟩), ("202", ⟨"target", "202", "key2", []⟩)]
      = some ⟨"target", "202", "key2", []⟩ ∧
    resolveEntries "target" (fun _ => "PROMPTED") ⟨none, none, 0⟩
        [("101", ⟨"other", "101", "key1", []⟩), ("202", ⟨"target", "202", "key2", []⟩)]
      = ⟨some "202", some "key2", 2⟩ ∧
    (2 : Nat) ≠ 0 := by
  refine ⟨by decide, by decide, by decide⟩

/-- C2 amended: whenever the configuration file contains an entry whose
stored name equals the requested name, the load ends up with the stored
boardId and apiKey of the last such entry, whatever arguments were supplied;
and no prompting happens when both the boardID and apiKey arguments were
supplied.  When either argument is missing, however, each non-matching entry
scanned while that argument is still missing triggers a prompt, so prompting
is avoided only when both values are supplied, when every entry matches, or
when a matching entry precedes the non-matching ones. -/
theorem boardGen_reuse_amended :
    ∀ (name : String) (entries : List (String × StoredEntry)) (inputs : Nat → String)
      (bid akey : Option String),
      (∀ e, lastMatch name entries = some e →
        (resolveEntries name inputs ⟨bid, akey, 0⟩ entries).boardID = some e.board ∧
        (resolveEntries name inputs ⟨bid, akey, 0⟩ entries).apiKey = some e.apiKey) ∧
      (bid.isSome = true → akey.isSome = true →
        (resolveEntries name inputs ⟨bid, akey, 0⟩ entries).idx = 0) := by
  intro name entries inputs bid akey
  constructor
  · intro e he
    exact resolveEntries_lastMatch name inputs entries e he ⟨bid, akey, 0⟩
  · intro hb ha
    exact resolveEntries_no_prompt name inputs entries ⟨bid, akey, 0⟩ hb ha

/-- Witness for C2: on a one-entry file whose entry matches, the stored
credentials are reused; and with both arguments supplied the scan prompts
zero times. -/
theorem boardGen_reuse_amended_witness :
    ((resolveEntries "t" (fun _ => "z") ⟨none, none, 0⟩
        [("2", ⟨"t", "2", "k2", []⟩)]).boardID = some "2" ∧
      (resolveEntries "t" (fun _ => "z") ⟨none, none, 0⟩
        [("2", ⟨"t", "2", "k2", []⟩)]).apiKey = some "k2") ∧
    (resolveEntries "t" (fun _ => "z") ⟨some "9", some "k", 0⟩
        [("2", ⟨"t", "2", "k2", []⟩)]).idx = 0 := by
  constructor
  · exact (boardGen_reuse_amended "t" [("2", ⟨"t", "2", "k2", []⟩)] (fun _ => "z")
      none none).1 ⟨"t", "2", "k2", []⟩ (by decide)
  · exact (boardGen_reuse_amended "t" [("2", ⟨"t", "2", "k2", []⟩)] (fun _ => "z")
      (some "9") (some "k")).2 rfl rfl

theorem promptMissing_boardID_isSome (inputs : Nat → String) (st : RState) :
    (promptMissing inputs st).boardID.isSome = true := by
  unfold promptMissing
  cases ha : st.apiKey <;> cases hb : st.boardID <;> simp [ha, hb]

theorem resolveStep_boardID_isSome (name : String) (inputs : Nat → String) (st : RState)
    (p : String × StoredEntry) : (resolveStep name inputs st p).boardID.isSome = true := by
  unfold resolveStep
  by_cases hc : p.2.name = name
  · rw [if_pos hc]
    rfl
  · rw [if_neg hc]
    exact promptMissing_boardID_isSome inputs st

theorem resolveEntries_keeps_boardID_isSome (name : String) (inputs : Nat → String) :
    ∀ (l : List (String × StoredEntry)) (st : RState), st.boardID.isSome = true →
      (resolveEntries name inputs st l).boardID.isSome = true := by
  intro l
  induction l with
  | nil => intro st h; exact h
  | cons p rest ih =>
    intro st _
    exact ih (resolveStep name inputs st p) (resolveStep_boardID_isSome name inputs st p)

theorem resolveEntries_cons_boardID_isSome (name : String) (inputs : Nat → String)
    (p : String × StoredEntry) (rest : List (String × StoredEntry)) (st : RState) :
    (resolveEntries name inputs st (p :: rest)).boardID.isSome = true :=
  resolveEntries_keeps_boardID_isSome name inputs rest (resolveStep name inputs st p)
    (resolveStep_boardID_isSome name inputs st p)

theorem boardGenRescue_spec (name : String) (inputs : Nat → String) (st : RState)
    (base : MemBoards) (fetch : Option String → Except String ColumnMap)
    (hbase : ∀ p ∈ base, p.1.isSome = true)
    (hsome : ∀ s : String, ∃ cm, fetch (some s) = Except.ok cm) :
    ∃ boards, boardGenRescue name inputs st base fetch = Except.ok boards ∧
      dictLookup boards (none : Option String) = none := by
  obtain ⟨s, hs⟩ := Option.isSome_iff_exists.mp (promptMissing_boardID_isSome inputs st)
  obtain ⟨cm, hcm⟩ := hsome s
  refine ⟨dictInsert base (promptMissing inputs st).boardID
      { name := name
        board := (promptMissing inputs st).boardID
        apiKey := (promptMissing inputs st).apiKey
        columns := cm }, ?_, ?_⟩
  · unfold boardGenRescue
    rw [hs, hcm]
  · apply dictLookup_none_of_all_some
    apply dictInsert_all_some _ _ _ hbase
    exact promptMissing_boardID_isSome inputs st

/-- C9: constructing a Board without an explicit boardID argument always ends
in a KeyError during initialization — even when the configuration file
already contains a board with the requested name — because init indexes the
returned configuration by the caller-supplied boardID (None) while boardGen
stores every entry under the board id it resolved.  The hypotheses pin the
remote schema fetch to its real behavior: it succeeds for genuine board ids
and fails when no board id was resolved. -/
theorem board_init_none_keyerror :
    ∀ fetch : Option String → Except String ColumnMap,
      (∀ s : String, ∃ cm, fetch (some s) = Except.ok cm) →
      (∀ cm, fetch (none : Option String) ≠ Except.ok cm) →
      ∀ (name : String) (apiKey : Option String)
        (file : Option (List (String × StoredEntry))) (inputs : Nat → String),
        board_init name none apiKey file fetch inputs = Except.error "KeyError" := by
  intro fetch hsome hnone name apiKey file inputs
  cases file with
  | none =>
    obtain ⟨boards, hb, hl⟩ :=
      boardGenRescue_spec name inputs ⟨none, apiKey, 0⟩ [] fetch (by simp) hsome
    unfold board_init
    simp [boardGen, hb, hl]
  | some fb =>
    have hbase : ∀ p ∈ fb.map (fun p => ((some p.1 : Option String), storedToMem p.2)),
        p.1.isSome = true := by
      intro p hp
      obtain ⟨q, _, hq⟩ := List.mem_map.mp hp
      rw [← hq]
      rfl
    cases fb with
    | nil =>
      cases hf : fetch none with
      | ok cm => exact absurd hf (hnone cm)
      | error e =>
        obtain ⟨boards, hb, hl⟩ :=
          boardGenRescue_spec name inputs ⟨none, apiKey, 0⟩ [] fetch (by simp) hsome
        have hfe : fetch (resolveEntries name inputs (⟨none, apiKey, 0⟩ : RState)
            ([] : List (String × StoredEntry))).boardID = Except.error e := hf
        unfold board_init
        simp [boardGen, hf, hb, hl, resolveEntries]
    | cons p rest =>
      obtain ⟨s, hs⟩ := Option.isSome_iff_exists.mp
        (resolveEntries_cons_boardID_isSome name inputs p rest ⟨none, apiKey, 0⟩)
      obtain ⟨cm, hcm⟩ := hsome s
      have hall : ∀ q ∈ dictInsert
          ((p :: rest).map (fun p => ((some p.1 : Option String), storedToMem p.2)))
          (some s)
          { name := name, board := some s,
            apiKey := (resolveEntries name inputs ⟨none, apiKey, 0⟩ (p :: rest)).apiKey,
            columns := cm },
          q.1.isSome = true :=
        dictInsert_all_some _ _ _ hbase rfl
      simp only [List.map_cons] at hall
      unfold board_init
      simp [boardGen, hs, hcm, dictLookup_none_of_all_some _ hall]

/-- Witness for C9: a concrete file that does contain an entry named B, a
schema fetch that succeeds on genuine board ids and fails on None, and an
arbitrary input stream still give KeyError when no boardID argument is
passed. -/
theorem board_init_none_keyerror_witness :
    board_init "B" none none (some [("1", ⟨"B", "1", "k", []⟩)])
        (fun b => match b with
          | some _ => Except.ok []
          | none => Except.error "no board")
        (fun _ => "z")
      = Except.error "KeyError" :=
  board_init_none_keyerror
    (fun b => match b with
      | some _ => Except.ok []
      | none => Except.error "no board")
    (fun s => ⟨[], rfl⟩) (fun cm h => by simp at h) "B" none
    (some [("1", ⟨"B", "1", "k", []⟩)]) (fun _ => "z")

end MonPy
